import Mathlib

/-!
Verification of the Provider Orchestration & Resilience Layer of the fetcher
service (src/backend/micro/fetcher).  The Python modules
`fetcher/core/providers/base.py`, `fetcher/core/providers/provider_manager.py`
and `fetcher/grpc/middleware.py` are shallowly embedded below: pure methods
become Lean functions, stateful methods thread their state explicitly, Python
exceptions become `Except`, Python `dict`s become association lists, Python
`float`s become `ℚ`, and the effectful steps of the `get_data` pipeline
(cache lookup, rate-limit acquisition, fetch attempts, backoff sleeps, cache
stores) are recorded in an explicit trace.
-/

deriving instance DecidableEq for Except

namespace Fetcher

/-! ## Association-list model of Python dict -/

/-- Lookup in an association list (Python `d.get(k)`): first binding wins. -/
def dict_get {α β : Type} [DecidableEq α] : List (α × β) → α → Option β
  | [], _ => none
  | kv :: rest, k => if kv.1 = k then some kv.2 else dict_get rest k

/-- Assignment `d[k] = v` on an association list: update the existing binding
in place, else append a fresh binding at the end (Python dicts preserve
insertion order). -/
def dict_set {α β : Type} [DecidableEq α] : List (α × β) → α → β → List (α × β)
  | [], k, v => [(k, v)]
  | kv :: rest, k, v => if kv.1 = k then (k, v) :: rest else kv :: dict_set rest k v

theorem dict_get_set_self {α β : Type} [DecidableEq α] (l : List (α × β)) (k : α) (v : β) :
    dict_get (dict_set l k v) k = some v := by
  induction l with
  | nil => simp [dict_get, dict_set]
  | cons kv rest ih =>
    by_cases h : kv.1 = k
    · simp [dict_set, dict_get, h]
    · simp [dict_set, dict_get, h, ih]

theorem dict_get_set_ne {α β : Type} [DecidableEq α] (l : List (α × β)) (k k' : α) (v : β)
    (h : k ≠ k') : dict_get (dict_set l k v) k' = dict_get l k' := by
  induction l with
  | nil => simp [dict_get, dict_set, h]
  | cons kv rest ih =>
    by_cases hk : kv.1 = k
    · simp [dict_set, dict_get, hk, h]
    · simp only [dict_set, hk, if_false, dict_get]
      by_cases hk' : kv.1 = k' <;> simp [hk', ih]

/-- Filtering by a predicate on keys commutes with lookup when the looked-up
key satisfies the predicate. -/
theorem dict_get_filter {α β : Type} [DecidableEq α] (l : List (α × β)) (p : α × β → Bool)
    (k : α) (hp : ∀ v : β, p (k, v) = true) :
    dict_get (l.filter p) k = dict_get l k := by
  induction l with
  | nil => simp [dict_get]
  | cons kv rest ih =>
    by_cases hk : kv.1 = k
    · have : kv = (k, kv.2) := by cases kv; simp_all
      rw [this]
      simp [List.filter, hp kv.2, dict_get]
    · by_cases hpkv : p kv = true
      · simp [List.filter, hpkv, dict_get, hk, ih]
      · simp only [List.filter, Bool.not_eq_true] at hpkv ⊢
        rw [hpkv]
        simp [dict_get, hk, ih]

theorem mem_dict_set {α β : Type} [DecidableEq α] (l : List (α × β)) (k : α) (v : β)
    (kv : α × β) (h : kv ∈ dict_set l k v) : kv = (k, v) ∨ kv ∈ l := by
  induction l with
  | nil =>
    simp [dict_set] at h
    exact Or.inl h
  | cons hd rest ih =>
    by_cases hk : hd.1 = k
    · simp [dict_set, hk] at h
      rcases h with h | h
      · exact Or.inl h
      · exact Or.inr (List.mem_cons_of_mem _ h)
    · simp only [dict_set, hk, if_false, List.mem_cons] at h
      rcases h with h | h
      · exact Or.inr (by simp [h])
      · rcases ih h with h' | h'
        · exact Or.inl h'
        · exact Or.inr (List.mem_cons_of_mem _ h')

/-! ## Enums (base.py lines 20-39) -/

/-- Embedding of `DataCategory` (base.py lines 20-29).  The source constructor
`MACRO` (string value "macro") is rendered here as `economic`. -/
inductive DataCategory where
  | bond
  | equity
  | news
  | economic
  | crypto
  | forex
  | commodities
  | alternative
deriving DecidableEq, Repr

/-- String value of each `DataCategory` member as declared in the source. -/
def DataCategory.value : DataCategory → String
  | .bond => "bond"
  | .equity => "equity"
  | .news => "news"
  | .economic => "macro"
  | .crypto => "crypto"
  | .forex => "forex"
  | .commodities => "commodities"
  | .alternative => "alternative"

/-- Embedding of `MarketRegion` (base.py lines 32-39). -/
inductive MarketRegion where
  | global_mkt
  | us
  | china
  | europe
  | asia_pacific
  | emerging
deriving DecidableEq, Repr

/-- String value of each `MarketRegion` member as declared in the source. -/
def MarketRegion.value : MarketRegion → String
  | .global_mkt => "global"
  | .us => "us"
  | .china => "cn"
  | .europe => "eu"
  | .asia_pacific => "ap"
  | .emerging => "em"

/-! ## ProviderConfig (base.py lines 41-160) -/

/-- Embedding of the `ProviderConfig` dataclass fields (base.py lines 41-70),
with Python `Dict[str, Any]` / `Dict[str, str]` fields rendered as string
association lists. -/
structure ProviderConfig where
  provider_id : String
  class_path : String
  provider_name : String
  base_url : Option String := none
  api_key : Option String := none
  rate_limit : Int := 100
  timeout : Int := 30
  retries : Int := 3
  enabled : Bool := true
  priority : Int := 10
  provider_params : List (String × String) := []
  supported_categories : List DataCategory := []
  supported_regions : List MarketRegion := []
  custom_headers : List (String × String) := []
deriving DecidableEq, Repr

/-- Normalization applied to `provider_id` in `ProviderConfig.__post_init__`
(base.py line 93): `self.provider_id.lower().replace(' ', '_').replace('-', '_')`.
Both replaced patterns are single characters, so the lower/replace chain is
rendered as one per-character map. -/
def normalize_provider_id (s : String) : String :=
  String.mk (s.data.map (fun ch =>
    let lc := ch.toLower
    if lc = ' ' then '_' else if lc = '-' then '_' else lc))

/-- Embedding of `ProviderConfig.__post_init__` (base.py lines 72-93) as a
smart constructor: the raw dataclass field values go in, and either the
validated config with the normalized `provider_id` comes out, or the
`ValueError` message raised by the first failing check. -/
def mk_provider_config (c : ProviderConfig) : Except String ProviderConfig :=
  if c.provider_id = "" then .error "provider_id 不能为空"
  else if c.class_path = "" then .error "class_path 不能为空"
  else if c.provider_name = "" then .error "provider_name 不能为空"
  else if c.rate_limit ≤ 0 then .error "rate_limit 必须大于0"
  else if c.timeout ≤ 0 then .error "timeout 必须大于0"
  else if c.retries < 0 then .error "retries 不能小于0"
  else if c.priority < 0 then .error "priority 不能小于0"
  else .ok { c with provider_id := normalize_provider_id c.provider_id }

/-- Embedding of `ProviderConfig.supports_category` (base.py lines 95-97):
`not self.supported_categories or category in self.supported_categories`. -/
def ProviderConfig.supports_category (c : ProviderConfig) (category : DataCategory) : Bool :=
  c.supported_categories.isEmpty || c.supported_categories.any (fun x => decide (x = category))

/-- Embedding of `ProviderConfig.supports_region` (base.py lines 99-101). -/
def ProviderConfig.supports_region (c : ProviderConfig) (region : MarketRegion) : Bool :=
  c.supported_regions.isEmpty || c.supported_regions.any (fun x => decide (x = region))

/-- Embedding of `ProviderConfig.is_available` (base.py lines 124-126). -/
def ProviderConfig.is_available (c : ProviderConfig) : Bool :=
  c.enabled

/-! ## DataQuality (base.py lines 162-182) -/

/-- Embedding of the `DataQuality` dataclass (base.py lines 162-176).  The
four float scores become rationals; `last_updated` (a UTC datetime filled in
by `__post_init__`) is rendered as an abstract tick count. -/
structure DataQuality where
  accuracy_score : ℚ := 0
  completeness_score : ℚ := 0
  timeliness_score : ℚ := 0
  confidence_level : ℚ := 0
  data_sources : List String := []
  last_updated : Nat := 0
deriving DecidableEq, Repr

/-- Embedding of the `DataQuality.overall_score` property (base.py
lines 178-182). -/
def DataQuality.overall_score (q : DataQuality) : ℚ :=
  (q.accuracy_score + q.completeness_score + q.timeliness_score + q.confidence_level) / 4

/-- Arithmetic mean of a list of rationals, written from the spec's phrase
"arithmetic mean of the four" to compare against the source's
`overall_score`. -/
def arithmetic_mean (xs : List ℚ) : ℚ :=
  xs.sum / xs.length

/-! ## ProviderResponse (base.py lines 185-203) -/

/-- Embedding of the `ProviderResponse` dataclass (base.py lines 185-203).
The free-form `metadata` dict built by `_build_metadata` holds only
stringified diagnostics and is not modeled. -/
structure ProviderResponse (ν : Type) where
  data : ν
  provider_id : String
  request_id : String
  timestamp : Nat
  data_quality : DataQuality
  errors : List String := []
  warnings : List String := []
deriving DecidableEq, Repr

/-! ## The resilience pipeline of BaseProvider.get_data (base.py lines 287-394)

The awaited side effects of one `get_data` call are recorded in a trace. -/

/-- One observable effect of the `get_data` pipeline. -/
inductive Effect where
  | cache_lookup
  | rate_limit_acquire
  | fetch_attempt
  | backoff_sleep (t : Nat)
  | cache_store
deriving DecidableEq, Repr

/-- Number of `fetch_data` invocations recorded in a trace. -/
def attempts_of (tr : List Effect) : Nat :=
  tr.countP (fun e => decide (e = .fetch_attempt))

/-- Backoff sleep durations recorded in a trace, in order. -/
def sleeps_of (tr : List Effect) : List Nat :=
  tr.filterMap (fun e => match e with | .backoff_sleep t => some t | _ => none)

/-- Embedding of the loop body of `BaseProvider._fetch_with_retry` (base.py
lines 376-394), entered at loop index `attempt` with `remaining = retries -
attempt` iterations still allowed after this one (so the source's guard
`attempt < self.config.retries` is exactly `remaining > 0`).  The outcome of
the i-th `fetch_data` call is `fetch i`.  On success the loop returns
immediately; on failure it sleeps `2 ** attempt` seconds and retries while
iterations remain, and after the loop the last exception is re-raised. -/
def fetch_with_retry_go {ε ρ : Type} (fetch : Nat → Except ε ρ) :
    Nat → Nat → Except ε ρ × List Effect
  | attempt, remaining =>
    match fetch attempt with
    | .ok raw => (.ok raw, [.fetch_attempt])
    | .error e =>
      match remaining with
      | 0 => (.error e, [.fetch_attempt])
      | r + 1 =>
        let rest := fetch_with_retry_go fetch (attempt + 1) r
        (rest.1, .fetch_attempt :: .backoff_sleep (2 ^ attempt) :: rest.2)

/-- Embedding of `BaseProvider._fetch_with_retry` (base.py lines 376-394):
the loop `for attempt in range(self.config.retries + 1)` started at index 0
with `retries` further iterations allowed. -/
def fetch_with_retry {ε ρ : Type} (fetch : Nat → Except ε ρ) (retries : Nat) :
    Except ε ρ × List Effect :=
  fetch_with_retry_go fetch 0 retries

/-- Exception surface of `BaseProvider.get_data` (base.py lines 287-335):
the `ValueError("Invalid request parameters")` of the validation step, or an
underlying exception propagated unchanged out of the fetch or normalize
steps.  The outer `except` block (lines 333-335) logs and re-raises, so
every exception leaves `get_data` untouched. -/
inductive GetDataError (ε : Type) where
  | invalid_request
  | fetch_error (e : ε)
  | normalize_error (e : ε)
deriving DecidableEq, Repr

/-- Embedding of `BaseProvider._get_cached_data` (base.py lines 358-363): it
returns `None` when no cache handle is set, and — the cache logic being an
unimplemented placeholder — it returns `None` after the placeholder comment
as well. -/
def get_cached_data {π ν κ : Type} (cache : Option κ) (params : π) :
    Option (ProviderResponse ν) :=
  match cache with
  | none => none
  | some _ => none

/-- Embedding of `BaseProvider._cache_data` (base.py lines 365-369): when a
cache handle is set the body is an unimplemented placeholder (`pass`), so the
cache state is returned unchanged in both cases. -/
def cache_data {π ν κ : Type} (cache : Option κ) (params : π)
    (response : ProviderResponse ν) : Option κ :=
  cache

/-- Embedding of `BaseProvider.get_data` (base.py lines 287-335).  Abstract
method implementations are parameters: `validate_request` (pure bool check),
`fetch` (outcome of the i-th `fetch_data` invocation of this call),
`normalize_data` (pure, may raise) and `assess_data_quality` (pure).  The
`request_id` generated by `_generate_request_id` and the `start_time`
timestamp are passed in.  Returns the result, the effect trace, and the cache
state after the call. -/
def get_data {π ρ ν κ ε : Type} (validate_request : π → Bool) (retries : Nat)
    (normalize_data : ρ → Except ε ν) (assess_data_quality : ν → DataQuality)
    (provider_id request_id : String) (start_time : Nat)
    (fetch : Nat → Except ε ρ) (cache : Option κ) (params : π) :
    Except (GetDataError ε) (ProviderResponse ν) × List Effect × Option κ :=
  if validate_request params = false then
    (.error .invalid_request, [], cache)
  else
    match get_cached_data cache params with
    | some cached => (.ok cached, [.cache_lookup], cache)
    | none =>
      let fetched := fetch_with_retry fetch retries
      match fetched.1 with
      | .error e =>
        (.error (.fetch_error e), .cache_lookup :: .rate_limit_acquire :: fetched.2, cache)
      | .ok raw =>
        match normalize_data raw with
        | .error e =>
          (.error (.normalize_error e), .cache_lookup :: .rate_limit_acquire :: fetched.2,
            cache)
        | .ok normalized =>
          let quality := assess_data_quality normalized
          let response : ProviderResponse ν :=
            { data := normalized, provider_id := provider_id, request_id := request_id,
              timestamp := start_time, data_quality := quality }
          (.ok response,
            .cache_lookup :: .rate_limit_acquire :: fetched.2 ++ [.cache_store],
            cache_data cache params response)

/-! ## Trace bookkeeping lemmas -/

@[simp] theorem attempts_of_nil : attempts_of [] = 0 := rfl

@[simp] theorem attempts_of_cons_fetch (tr : List Effect) :
    attempts_of (.fetch_attempt :: tr) = attempts_of tr + 1 := by
  simp [attempts_of, List.countP_cons]

@[simp] theorem attempts_of_cons_sleep (t : Nat) (tr : List Effect) :
    attempts_of (.backoff_sleep t :: tr) = attempts_of tr := by
  simp [attempts_of, List.countP_cons]

@[simp] theorem sleeps_of_nil : sleeps_of [] = [] := rfl

@[simp] theorem sleeps_of_cons_fetch (tr : List Effect) :
    sleeps_of (.fetch_attempt :: tr) = sleeps_of tr := by
  simp [sleeps_of]

@[simp] theorem sleeps_of_cons_sleep (t : Nat) (tr : List Effect) :
    sleeps_of (.backoff_sleep t :: tr) = t :: sleeps_of tr := by
  simp [sleeps_of]

/-- The cache-lookup stub never produces a hit, whether or not a cache handle
is present. -/
@[simp] theorem get_cached_data_eq_none {π ν κ : Type} (cache : Option κ) (params : π) :
    (get_cached_data cache params : Option (ProviderResponse ν)) = none := by
  cases cache <;> rfl

/-! ## Behavior of the retry loop -/

/-- One loop iteration whose fetch succeeds returns at once. -/
theorem fetch_with_retry_go_step_ok {ε ρ : Type} {fetch : Nat → Except ε ρ}
    {attempt : Nat} {a : ρ} (remaining : Nat) (h : fetch attempt = .ok a) :
    fetch_with_retry_go fetch attempt remaining = (.ok a, [.fetch_attempt]) := by
  unfold fetch_with_retry_go
  rw [h]

/-- The final loop iteration failing raises that failure. -/
theorem fetch_with_retry_go_step_err_last {ε ρ : Type} {fetch : Nat → Except ε ρ}
    {attempt : Nat} {e : ε} (h : fetch attempt = .error e) :
    fetch_with_retry_go fetch attempt 0 = (.error e, [.fetch_attempt]) := by
  unfold fetch_with_retry_go
  rw [h]

/-- A non-final loop iteration failing sleeps `2 ^ attempt` and continues. -/
theorem fetch_with_retry_go_step_err {ε ρ : Type} {fetch : Nat → Except ε ρ}
    {attempt : Nat} {e : ε} (r : Nat) (h : fetch attempt = .error e) :
    fetch_with_retry_go fetch attempt (r + 1) =
      ((fetch_with_retry_go fetch (attempt + 1) r).1,
        .fetch_attempt :: .backoff_sleep (2 ^ attempt) ::
          (fetch_with_retry_go fetch (attempt + 1) r).2) := by
  conv_lhs => rw [fetch_with_retry_go]
  rw [h]

/-- Entering the retry loop at index `attempt` with `k ≤ remaining` failures
ahead followed by a success: the loop returns the success after `k + 1`
attempts, sleeping `2 ^ attempt, …, 2 ^ (attempt + k - 1)` in between. -/
theorem fetch_with_retry_go_ok {ε ρ : Type} (fetch : Nat → Except ε ρ) (a : ρ) :
    ∀ (k attempt remaining : Nat), k ≤ remaining →
    (∀ i, i < k → ∃ e, fetch (attempt + i) = .error e) →
    fetch (attempt + k) = .ok a →
    (fetch_with_retry_go fetch attempt remaining).1 = .ok a ∧
    attempts_of (fetch_with_retry_go fetch attempt remaining).2 = k + 1 ∧
    sleeps_of (fetch_with_retry_go fetch attempt remaining).2 =
      (List.range k).map (fun i => 2 ^ (attempt + i)) := by
  intro k
  induction k with
  | zero =>
    intro attempt remaining _ _ hok
    rw [Nat.add_zero] at hok
    rw [fetch_with_retry_go_step_ok remaining hok]
    simp
  | succ k ih =>
    intro attempt remaining hk hfail hok
    obtain ⟨e, he⟩ := hfail 0 (Nat.succ_pos k)
    rw [Nat.add_zero] at he
    obtain ⟨r, rfl⟩ : ∃ r, remaining = r + 1 := ⟨remaining - 1, by omega⟩
    have ih' := ih (attempt + 1) r (by omega)
      (fun i hi => by
        have h := hfail (i + 1) (by omega)
        rwa [show attempt + (i + 1) = attempt + 1 + i by omega] at h)
      (by rwa [show attempt + 1 + k = attempt + (k + 1) by omega])
    rw [fetch_with_retry_go_step_err r he]
    refine ⟨ih'.1, ?_, ?_⟩
    · simp [ih'.2.1]
    · simp only [sleeps_of_cons_fetch, sleeps_of_cons_sleep, ih'.2.2]
      rw [List.range_succ_eq_map, List.map_cons, List.map_map]
      refine congrArg₂ List.cons (by rw [Nat.add_zero]) ?_
      refine List.map_congr_left fun i _ => ?_
      simp only [Function.comp]
      congr 1
      omega

/-- Entering the retry loop at index `attempt` with every remaining attempt
failing: the loop raises the exception of the final attempt. -/
theorem fetch_with_retry_go_err {ε ρ : Type} (fetch : Nat → Except ε ρ) (e_last : ε) :
    ∀ (remaining attempt : Nat),
    (∀ i, i ≤ remaining → ∃ e, fetch (attempt + i) = .error e) →
    fetch (attempt + remaining) = .error e_last →
    (fetch_with_retry_go fetch attempt remaining).1 = .error e_last := by
  intro remaining
  induction remaining with
  | zero =>
    intro attempt _ hlast
    rw [Nat.add_zero] at hlast
    rw [fetch_with_retry_go_step_err_last hlast]
  | succ r ih =>
    intro attempt hfail hlast
    obtain ⟨e, he⟩ := hfail 0 (Nat.zero_le _)
    rw [Nat.add_zero] at he
    rw [fetch_with_retry_go_step_err r he]
    exact ih (attempt + 1)
      (fun i hi => by
        have h := hfail (i + 1) (by omega)
        rwa [show attempt + (i + 1) = attempt + 1 + i by omega] at h)
      (by rwa [show attempt + 1 + r = attempt + (r + 1) by omega])

/-! ## Claim C1 -/

/-- C1: for a provider configured with `retries = r`, a sequence of `k ≤ r`
fetch failures followed by a success makes the retry wrapper return the
successful result after exactly `k + 1` fetch attempts with backoff sleeps
`2^0, 2^1, …, 2^(k-1)` between consecutive attempts; and `r + 1` consecutive
failures make it raise the last underlying exception — which `get_data`
propagates unchanged (wrapped injectively as a fetch error). -/
theorem claim_C1_retry_backoff {ε ρ : Type} (fetch : Nat → Except ε ρ) (retries : Nat) :
    (∀ (k : Nat) (a : ρ), k ≤ retries →
      (∀ i, i < k → ∃ e, fetch i = .error e) →
      fetch k = .ok a →
      (fetch_with_retry fetch retries).1 = .ok a ∧
      attempts_of (fetch_with_retry fetch retries).2 = k + 1 ∧
      sleeps_of (fetch_with_retry fetch retries).2 = (List.range k).map (fun i => 2 ^ i)) ∧
    (∀ e_last : ε, (∀ i, i ≤ retries → ∃ e, fetch i = .error e) →
      fetch retries = .error e_last →
      (fetch_with_retry fetch retries).1 = .error e_last ∧
      (∀ (π ν κ : Type) (validate_request : π → Bool) (normalize_data : ρ → Except ε ν)
        (assess_data_quality : ν → DataQuality) (provider_id request_id : String)
        (start_time : Nat) (cache : Option κ) (params : π),
        validate_request params = true →
        (get_data validate_request retries normalize_data assess_data_quality provider_id
            request_id start_time fetch cache params).1 = .error (.fetch_error e_last))) := by
  constructor
  · intro k a hk hfail hok
    have h := fetch_with_retry_go_ok fetch a k 0 retries hk
      (fun i hi => by simpa using hfail i hi) (by simpa using hok)
    refine ⟨h.1, h.2.1, ?_⟩
    simp only [fetch_with_retry]
    rw [h.2.2]
    simp
  · intro e_last hfail hlast
    have h1 : (fetch_with_retry fetch retries).1 = .error e_last :=
      fetch_with_retry_go_err fetch e_last retries 0
        (fun i hi => by simpa using hfail i hi) (by simpa using hlast)
    refine ⟨h1, ?_⟩
    intro π ν κ validate_request normalize_data assess_data_quality provider_id request_id
      start_time cache params hval
    simp [get_data, hval, h1]

/-- Concrete runs of the C1 theorem: retries = 3 with two failures then the
value 42, and retries = 2 with every attempt failing. -/
theorem claim_C1_retry_backoff_witness :
    ((fetch_with_retry (fun i => if i < 2 then Except.error i else Except.ok 42) 3).1 =
        Except.ok 42 ∧
      attempts_of (fetch_with_retry (fun i => if i < 2 then Except.error i else
        Except.ok 42) 3).2 = 3 ∧
      sleeps_of (fetch_with_retry (fun i => if i < 2 then Except.error i else
        Except.ok 42) 3).2 = [1, 2]) ∧
    (fetch_with_retry (fun i => (Except.error i : Except Nat Nat)) 2).1 = Except.error 2 := by
  constructor
  · have h := (claim_C1_retry_backoff (fun i => if i < 2 then Except.error i else
        Except.ok 42) 3).1 2 42 (by omega) (fun i hi => ⟨i, if_pos hi⟩) (by decide)
    exact ⟨h.1, h.2.1, by rw [h.2.2]; decide⟩
  · exact ((claim_C1_retry_backoff (fun i => (Except.error i : Except Nat Nat)) 2).2 2
      (fun i _ => ⟨i, rfl⟩) rfl).1

/-! ## Claim C2 -/

/-- C2 fails on the code: `_get_cached_data` unconditionally returns `None`
and `_cache_data` stores nothing (both are unimplemented placeholders), so
two `get_data` calls with identical parameters — the second threading the
cache state left by the first, well within any TTL — invoke `fetch_data`
once each: two invocations in total, not at most one. -/
theorem claim_C2_cache_stub_fetches_twice :
    attempts_of (get_data (fun _ : Unit => true) 3
        (fun r : Nat => (Except.ok r : Except Unit Nat)) (fun _ => ({} : DataQuality))
        "yahoo_finance" "req-1" 0 (fun _ => Except.ok 5) (some ()) ()).2.1 +
      attempts_of (get_data (fun _ : Unit => true) 3
        (fun r : Nat => (Except.ok r : Except Unit Nat)) (fun _ => ({} : DataQuality))
        "yahoo_finance" "req-2" 1 (fun _ => Except.ok 5)
        (get_data (fun _ : Unit => true) 3
          (fun r : Nat => (Except.ok r : Except Unit Nat)) (fun _ => ({} : DataQuality))
          "yahoo_finance" "req-1" 0 (fun _ => Except.ok 5) (some ()) ()).2.2 ()).2.1 = 2 := by
  decide

/-! ## Claim C6 -/

/-- C6: when `validate_request` returns false, `get_data` fails fast with the
validation `ValueError` and performs nothing else: the effect trace is empty
(no cache lookup, no rate-limit acquisition, no fetch attempt, no backoff
sleep) and the cache state is untouched. -/
theorem claim_C6_validation_fail_fast {π ρ ν κ ε : Type} (validate_request : π → Bool)
    (retries : Nat) (normalize_data : ρ → Except ε ν)
    (assess_data_quality : ν → DataQuality) (provider_id request_id : String)
    (start_time : Nat) (fetch : Nat → Except ε ρ) (cache : Option κ) (params : π)
    (h : validate_request params = false) :
    get_data validate_request retries normalize_data assess_data_quality provider_id
        request_id start_time fetch cache params =
      (.error .invalid_request, [], cache) := by
  simp [get_data, h]

/-- Concrete run of the C6 theorem. -/
theorem claim_C6_validation_fail_fast_witness :
    get_data (fun _ : Unit => false) 3 (fun r : Nat => (Except.ok r : Except Unit Nat))
        (fun _ => ({} : DataQuality)) "yahoo_finance" "req-1" 0 (fun _ => Except.ok 5)
        (some ()) () =
      (.error .invalid_request, [], some ()) :=
  claim_C6_validation_fail_fast _ _ _ _ _ _ _ _ _ _ rfl

/-! ## Claim C7 -/

/-- C7: `overall_score` is the arithmetic mean of the four component scores,
and the all-zero quality value has overall score exactly 0. -/
theorem claim_C7_overall_score_is_mean (q : DataQuality) :
    q.overall_score = arithmetic_mean
        [q.accuracy_score, q.completeness_score, q.timeliness_score, q.confidence_level] ∧
    DataQuality.overall_score { accuracy_score := 0, completeness_score := 0, timeliness_score := 0, confidence_level := 0 } = 0 := by
  constructor
  · simp [DataQuality.overall_score, arithmetic_mean]
    ring
  · simp [DataQuality.overall_score]

/-! ## Claim C9 -/

/-- C9 fails as stated: `__post_init__` accepts `retries == 0`, so the retry
count is not required to be strictly positive.  A config with
`retries = 0` (and a provider id needing normalization) constructs
successfully. -/
theorem claim_C9_counterexample_retries_zero :
    mk_provider_config { provider_id := "Yahoo Finance", class_path := "m.C", provider_name := "Yahoo", retries := 0 } =
      .ok { provider_id := "yahoo_finance", class_path := "m.C", provider_name := "Yahoo", retries := 0 } := by
  decide

/-- C9 as amended: every successfully constructed config has its provider id
normalized (lowercased, spaces and hyphens replaced by underscores), strictly
positive rate limit and timeout, and non-negative retries and priority; and
construction fails whenever rate limit or timeout is non-positive or retries
or priority is negative. -/
theorem claim_C9_config_invariants (c : ProviderConfig) :
    (∀ c', mk_provider_config c = .ok c' →
      c'.provider_id = normalize_provider_id c.provider_id ∧
      0 < c'.rate_limit ∧ 0 < c'.timeout ∧ 0 ≤ c'.retries ∧ 0 ≤ c'.priority) ∧
    (c.rate_limit ≤ 0 ∨ c.timeout ≤ 0 ∨ c.retries < 0 ∨ c.priority < 0 →
      (mk_provider_config c).isOk = false) := by
  constructor
  · intro c' h
    simp only [mk_provider_config] at h
    split_ifs at h with h1 h2 h3 h4 h5 h6 h7 <;>
      first
        | exact Except.noConfusion h
        | (injection h with hh
           subst hh
           refine ⟨rfl, ?_, ?_, ?_, ?_⟩ <;> simp <;> omega)
  · intro h
    rcases h with h | h | h | h <;>
      (simp only [mk_provider_config]
       split_ifs <;> first | rfl | (exfalso; omega))

/-- Concrete run of the C9 amended theorem: a valid config is normalized and
within bounds, and a non-positive rate limit is rejected. -/
theorem claim_C9_config_invariants_witness :
    (({ provider_id := "ak_share", class_path := "m.C", provider_name := "AKShare" } : ProviderConfig).provider_id =
      normalize_provider_id ({ provider_id := "AK Share", class_path := "m.C", provider_name := "AKShare" } : ProviderConfig).provider_id ∧
      0 < ({ provider_id := "ak_share", class_path := "m.C", provider_name := "AKShare" } : ProviderConfig).rate_limit ∧
      0 < ({ provider_id := "ak_share", class_path := "m.C", provider_name := "AKShare" } : ProviderConfig).timeout ∧
      0 ≤ ({ provider_id := "ak_share", class_path := "m.C", provider_name := "AKShare" } : ProviderConfig).retries ∧
      0 ≤ ({ provider_id := "ak_share", class_path := "m.C", provider_name := "AKShare" } : ProviderConfig).priority) ∧
    (mk_provider_config { provider_id := "x", class_path := "m.C", provider_name := "X", rate_limit := 0 }).isOk = false :=
  ⟨(claim_C9_config_invariants _).1 _ (by decide),
   (claim_C9_config_invariants _).2 (Or.inl (by decide))⟩

/-! ## Claim C10 -/

/-- C10: an empty `supported_categories` list makes `supports_category`
return true for every category, and an empty `supported_regions` list makes
`supports_region` return true for every region. -/
theorem claim_C10_empty_capabilities_support_all (c : ProviderConfig) :
    (c.supported_categories = [] → ∀ category, c.supports_category category = true) ∧
    (c.supported_regions = [] → ∀ region, c.supports_region region = true) := by
  constructor
  · intro h category
    simp [ProviderConfig.supports_category, h]
  · intro h region
    simp [ProviderConfig.supports_region, h]

/-! ## ServiceMetrics (middleware.py lines 17-75) -/

/-- Embedding of one entry of `ServiceMetrics.method_stats` (middleware.py
lines 38-44). -/
structure MethodStats where
  count : Nat := 0
  errors : Nat := 0
  total_time : ℚ := 0
  avg_time : ℚ := 0
deriving DecidableEq, Repr

/-- Embedding of the `ServiceMetrics` collector state (middleware.py
lines 20-25), with float durations as rationals and the two dicts as
association lists. -/
structure ServiceMetrics where
  request_count : Nat := 0
  error_count : Nat := 0
  response_times : List ℚ := []
  error_types : List (String × Nat) := []
  method_stats : List (String × MethodStats) := []
deriving DecidableEq, Repr

/-- Embedding of `ServiceMetrics.record_request` (middleware.py lines 27-52):
bump the global counters, append the latency, count the error type on
failure (Python's `if error_type:` is false for `None` and for the empty
string), and update the per-method statistics. -/
def ServiceMetrics.record_request (m : ServiceMetrics) (method : String) (duration : ℚ)
    (success : Bool) (error_type : Option String) : ServiceMetrics :=
  let m1 := { m with request_count := m.request_count + 1,
                     response_times := m.response_times ++ [duration] }
  let m2 :=
    if success = false then
      { m1 with error_count := m1.error_count + 1,
                error_types :=
                  match error_type with
                  | some et =>
                    if et = "" then m1.error_types
                    else dict_set m1.error_types et ((dict_get m1.error_types et).getD 0 + 1)
                  | none => m1.error_types }
    else m1
  let prev := (dict_get m2.method_stats method).getD {}
  let count1 := prev.count + 1
  let total1 := prev.total_time + duration
  let stats1 : MethodStats :=
    { count := count1, errors := prev.errors + (if success = false then 1 else 0),
      total_time := total1, avg_time := total1 / (count1 : ℚ) }
  { m2 with method_stats := dict_set m2.method_stats method stats1 }

/-! ## grpc_error_handler (middleware.py lines 82-150) -/

/-- Exception classes distinguished by the `except` clauses of
`grpc_error_handler` (middleware.py lines 97-143), each carrying `str(e)`.
`other_error` stands for any `Exception` not matched by an earlier clause. -/
inductive PyExc where
  | value_error (msg : String)
  | permission_error (msg : String)
  | file_not_found_error (msg : String)
  | timeout_error (msg : String)
  | connection_error (msg : String)
  | other_error (msg : String)
deriving DecidableEq, Repr

/-- gRPC status codes used by the middleware. -/
inductive StatusCode where
  | invalid_argument
  | permission_denied
  | not_found
  | deadline_exceeded
  | unavailable
  | internal
  | resource_exhausted
deriving DecidableEq, Repr

/-- Log severities used by the middleware. -/
inductive LogLevel where
  | warning
  | error
deriving DecidableEq, Repr

/-- The `error_type` string recorded into metrics by each `except` clause. -/
def error_type_of : PyExc → String
  | .value_error _ => "INVALID_ARGUMENT"
  | .permission_error _ => "PERMISSION_DENIED"
  | .file_not_found_error _ => "NOT_FOUND"
  | .timeout_error _ => "DEADLINE_EXCEEDED"
  | .connection_error _ => "UNAVAILABLE"
  | .other_error _ => "INTERNAL"

/-- The status code set by `context.set_code` in each `except` clause. -/
def status_code_of : PyExc → StatusCode
  | .value_error _ => .invalid_argument
  | .permission_error _ => .permission_denied
  | .file_not_found_error _ => .not_found
  | .timeout_error _ => .deadline_exceeded
  | .connection_error _ => .unavailable
  | .other_error _ => .internal

/-- The detail message set by `context.set_details` in each `except` clause. -/
def status_details_of : PyExc → String
  | .value_error msg => "Invalid argument: " ++ msg
  | .permission_error msg => "Permission denied: " ++ msg
  | .file_not_found_error msg => "Resource not found: " ++ msg
  | .timeout_error msg => "Operation timeout: " ++ msg
  | .connection_error msg => "Service unavailable: " ++ msg
  | .other_error msg => "Internal error: " ++ msg

/-- The log record emitted before translating, per `except` clause: the first
three clauses log at warning severity, the last three at error severity. -/
def log_entry_of (e : PyExc) (method_name : String) : LogLevel × String :=
  match e with
  | .value_error msg => (.warning, "参数错误在 " ++ method_name ++ ": " ++ msg)
  | .permission_error msg => (.warning, "权限错误在 " ++ method_name ++ ": " ++ msg)
  | .file_not_found_error msg => (.warning, "资源未找到在 " ++ method_name ++ ": " ++ msg)
  | .timeout_error msg => (.error, "超时错误在 " ++ method_name ++ ": " ++ msg)
  | .connection_error msg => (.error, "连接错误在 " ++ method_name ++ ": " ++ msg)
  | .other_error msg => (.error, "内部错误在 " ++ method_name ++ ": " ++ msg)

/-- Everything one wrapped call leaves behind: the value returned to gRPC
(`none` models the wrapper's `return None`), the status/details pair set on
the context (`none` when no error occurred), the log records emitted, and
the metrics state after the `finally` block ran `record_request`. -/
structure HandlerCallResult (ρ : Type) where
  result : Option ρ
  status : Option (StatusCode × String)
  logs : List (LogLevel × String)
  metrics : ServiceMetrics
deriving DecidableEq, Repr

/-- Embedding of the wrapper built by `grpc_error_handler` (middleware.py
lines 82-150) applied to one call.  `outcome` is what the wrapped handler
did: returned a value or raised an exception.  The wrapper itself is total —
it never re-raises — and its `finally` block records the call's duration and
outcome into the metrics in both cases. -/
def grpc_error_handler {ρ : Type} (metrics : ServiceMetrics) (method_name : String)
    (duration : ℚ) (outcome : Except PyExc ρ) : HandlerCallResult ρ :=
  match outcome with
  | .ok r =>
    { result := some r, status := none, logs := [],
      metrics := metrics.record_request method_name duration true none }
  | .error e =>
    { result := none, status := some (status_code_of e, status_details_of e),
      logs := [log_entry_of e method_name],
      metrics := metrics.record_request method_name duration false (some (error_type_of e)) }

/-! ## Claim C3 -/

/-- C3: the error-handling wrapper is a total function — a handler exception
is never re-raised.  On success it passes the value through; on any exception
it logs, sets the fixed status mapping (ValueError → INVALID_ARGUMENT,
PermissionError → PERMISSION_DENIED, FileNotFoundError → NOT_FOUND,
TimeoutError → DEADLINE_EXCEEDED, ConnectionError → UNAVAILABLE, anything
else → INTERNAL) with a detail message, and returns a null result; and in
both cases the call's duration and outcome are recorded into the
ServiceMetrics, globally and per method. -/
theorem claim_C3_error_handler_translates (ρ : Type) (m : ServiceMetrics)
    (method_name : String) (duration : ℚ) (outcome : Except PyExc ρ) :
    (∀ r, outcome = .ok r → grpc_error_handler m method_name duration outcome =
      { result := some r, status := none, logs := [],
        metrics := m.record_request method_name duration true none }) ∧
    (∀ e, outcome = .error e →
      (grpc_error_handler m method_name duration outcome).result = none ∧
      (grpc_error_handler m method_name duration outcome).status =
        some (status_code_of e, status_details_of e) ∧
      (grpc_error_handler m method_name duration outcome).logs = [log_entry_of e method_name] ∧
      (grpc_error_handler m method_name duration outcome).metrics =
        m.record_request method_name duration false (some (error_type_of e))) ∧
    (∀ s, status_code_of (.value_error s) = .invalid_argument ∧
      status_code_of (.permission_error s) = .permission_denied ∧
      status_code_of (.file_not_found_error s) = .not_found ∧
      status_code_of (.timeout_error s) = .deadline_exceeded ∧
      status_code_of (.connection_error s) = .unavailable ∧
      status_code_of (.other_error s) = .internal) ∧
    (∀ (success : Bool) (et : Option String),
      (m.record_request method_name duration success et).request_count =
        m.request_count + 1 ∧
      (m.record_request method_name duration success et).response_times =
        m.response_times ++ [duration] ∧
      (m.record_request method_name duration success et).error_count =
        m.error_count + (if success then 0 else 1) ∧
      ((dict_get (m.record_request method_name duration success et).method_stats
          method_name).getD {}).count =
        ((dict_get m.method_stats method_name).getD {}).count + 1) := by
  refine ⟨?_, ?_, ?_, ?_⟩
  · intro r h
    subst h
    rfl
  · intro e h
    subst h
    exact ⟨rfl, rfl, rfl, rfl⟩
  · intro s
    exact ⟨rfl, rfl, rfl, rfl, rfl, rfl⟩
  · intro success et
    refine ⟨?_, ?_, ?_, ?_⟩ <;>
      cases success <;>
        simp [ServiceMetrics.record_request, dict_get_set_self]

/-- Concrete run of the C3 theorem: a ValueError-raising handler is mapped
to INVALID_ARGUMENT with a null result and one recorded error. -/
theorem claim_C3_error_handler_translates_witness :
    (grpc_error_handler {} "FetchData" 1 (Except.error (PyExc.value_error "bad symbol")
      : Except PyExc Nat)).result = none ∧
    (grpc_error_handler {} "FetchData" 1 (Except.error (PyExc.value_error "bad symbol")
      : Except PyExc Nat)).status =
      some (StatusCode.invalid_argument, "Invalid argument: bad symbol") ∧
    (grpc_error_handler {} "FetchData" 1 (Except.error (PyExc.value_error "bad symbol")
      : Except PyExc Nat)).metrics.request_count = 1 := by
  have h := (claim_C3_error_handler_translates Nat {} "FetchData" 1
    (Except.error (PyExc.value_error "bad symbol"))).2.1 (PyExc.value_error "bad symbol") rfl
  have h4 := (claim_C3_error_handler_translates Nat {} "FetchData" 1
    (Except.error (PyExc.value_error "bad symbol"))).2.2.2 false
    (some "INVALID_ARGUMENT")
  exact ⟨h.1, by rw [h.2.1]; rfl, by rw [h.2.2.2]; exact h4.1⟩

/-! ## grpc_rate_limit (middleware.py lines 276-311) -/

/-- The closure state `request_counts` of the rate-limit wrapper: a Python
dict from (client identity, window bucket start) to request count. -/
abbrev RLCounts := List ((String × Nat) × Nat)

/-- Embedding of `window_start = current_time - (current_time %
window_seconds)` (middleware.py line 288). -/
def window_start (window_seconds current_time : Nat) : Nat :=
  current_time - current_time % window_seconds

/-- The detail message set when the rate limit trips (middleware.py
line 302). -/
def rate_limit_details (max_requests window_seconds : Nat) : String :=
  "Rate limit exceeded: " ++ toString max_requests ++ " requests per " ++
    toString window_seconds ++ " seconds"

/-- Embedding of one call through the wrapper built by `grpc_rate_limit`
(middleware.py lines 284-308): compute the window bucket, prune buckets
older than it, reject with RESOURCE_EXHAUSTED (and a `None` result, the
handler never runs) when the bucket count has reached `max_requests`, else
bump the count and admit the call.  Returns the rejection status (`none` =
admitted) and the updated closure state. -/
def grpc_rate_limit_step (max_requests window_seconds : Nat) (counts : RLCounts)
    (client_id : String) (current_time : Nat) :
    Option (StatusCode × String) × RLCounts :=
  let ws := window_start window_seconds current_time
  let pruned := counts.filter (fun kv => !decide (kv.1.2 < ws))
  let key := (client_id, ws)
  let current_count := (dict_get pruned key).getD 0
  if max_requests ≤ current_count then
    (some (.resource_exhausted, rate_limit_details max_requests window_seconds), pruned)
  else
    (none, dict_set pruned key (current_count + 1))

/-- A sequence of calls from one client at the given times, threading the
wrapper's closure state; returns the per-call rejection statuses in order
and the final state. -/
def grpc_rate_limit_calls (max_requests window_seconds : Nat) (client_id : String) :
    List Nat → RLCounts → List (Option (StatusCode × String)) × RLCounts
  | [], counts => ([], counts)
  | t :: ts, counts =>
    let st := grpc_rate_limit_step max_requests window_seconds counts client_id t
    let rest := grpc_rate_limit_calls max_requests window_seconds client_id ts st.2
    (st.1 :: rest.1, rest.2)

theorem rl_step_singleton (maxR w : Nat) (client : String) (ws c t : Nat)
    (h : window_start w t = ws) :
    grpc_rate_limit_step maxR w [((client, ws), c)] client t =
      if maxR ≤ c then
        (some (.resource_exhausted, rate_limit_details maxR w), [((client, ws), c)])
      else (none, [((client, ws), c + 1)]) := by
  by_cases hc : maxR ≤ c <;>
    simp [grpc_rate_limit_step, h, dict_get, dict_set, List.filter, hc]

theorem rl_step_empty (maxR w : Nat) (client : String) (t : Nat) :
    grpc_rate_limit_step maxR w [] client t =
      if maxR = 0 then (some (.resource_exhausted, rate_limit_details maxR w), [])
      else (none, [((client, window_start w t), 1)]) := by
  by_cases h0 : maxR = 0 <;>
    simp [grpc_rate_limit_step, dict_get, dict_set, List.filter, h0, Nat.le_zero]

/-- A bucket from a strictly earlier window is pruned, and the fresh bucket
starts at one. -/
theorem rl_step_stale_singleton (maxR w : Nat) (client : String) (ws1 ws2 c t : Nat)
    (h : window_start w t = ws2) (hlt : ws1 < ws2) (h0 : maxR ≠ 0) :
    grpc_rate_limit_step maxR w [((client, ws1), c)] client t =
      (none, [((client, ws2), 1)]) := by
  simp [grpc_rate_limit_step, h, dict_get, dict_set, List.filter, hlt, h0, Nat.le_zero]

theorem rl_calls_append (maxR w : Nat) (client : String) :
    ∀ (ts1 ts2 : List Nat) (counts : RLCounts),
    grpc_rate_limit_calls maxR w client (ts1 ++ ts2) counts =
      ((grpc_rate_limit_calls maxR w client ts1 counts).1 ++
        (grpc_rate_limit_calls maxR w client ts2
          (grpc_rate_limit_calls maxR w client ts1 counts).2).1,
       (grpc_rate_limit_calls maxR w client ts2
          (grpc_rate_limit_calls maxR w client ts1 counts).2).2) := by
  intro ts1
  induction ts1 with
  | nil => intro ts2 counts; simp [grpc_rate_limit_calls]
  | cons t ts ih =>
    intro ts2 counts
    simp only [List.cons_append, grpc_rate_limit_calls, List.append_eq, ih]

/-- Starting from a single bucket holding `c` counts, a run that stays in the
same window and never exceeds the limit is fully admitted and just adds its
length to the bucket. -/
theorem rl_run_singleton_all_ok (maxR w : Nat) (client : String) (ws : Nat) :
    ∀ (ts : List Nat) (c : Nat), (∀ t ∈ ts, window_start w t = ws) →
    c + ts.length ≤ maxR →
    grpc_rate_limit_calls maxR w client ts [((client, ws), c)] =
      (List.replicate ts.length none, [((client, ws), c + ts.length)]) := by
  intro ts
  induction ts with
  | nil => intro c _ _; simp [grpc_rate_limit_calls]
  | cons t ts ih =>
    intro c hws hlen
    simp only [grpc_rate_limit_calls]
    rw [rl_step_singleton maxR w client ws c t (hws t (List.mem_cons_self t ts))]
    rw [if_neg (by simp only [List.length_cons] at hlen; omega)]
    rw [ih (c + 1) (fun t' h' => hws t' (List.mem_cons_of_mem _ h'))
      (by simp only [List.length_cons] at hlen ⊢; omega)]
    simp only [List.length_cons, List.replicate_succ]
    refine congrArg₂ Prod.mk rfl ?_
    simp only [List.cons.injEq, Prod.mk.injEq, and_true, true_and]
    omega

/-- Starting from a single bucket holding `c ≤ maxR` counts, a run of
`maxR + 1 - c` calls in the same window admits all but the last call and
rejects that one with RESOURCE_EXHAUSTED. -/
theorem rl_run_singleton_reject (maxR w : Nat) (client : String) (ws : Nat) :
    ∀ (ts : List Nat) (c : Nat), (∀ t ∈ ts, window_start w t = ws) →
    c ≤ maxR → c + ts.length = maxR + 1 →
    (grpc_rate_limit_calls maxR w client ts [((client, ws), c)]).1 =
      List.replicate (maxR - c) none ++
        [some (.resource_exhausted, rate_limit_details maxR w)] := by
  intro ts
  induction ts with
  | nil =>
    intro c _ hc hlen
    simp only [List.length_nil] at hlen
    omega
  | cons t ts ih =>
    intro c hws hc hlen
    have ht := hws t (List.mem_cons_self t ts)
    by_cases hcm : maxR ≤ c
    · have hts : ts = [] := by
        simp only [List.length_cons] at hlen
        exact List.eq_nil_of_length_eq_zero (by omega)
      subst hts
      simp only [grpc_rate_limit_calls]
      rw [rl_step_singleton maxR w client ws c t ht, if_pos hcm]
      have hmc : maxR - c = 0 := by omega
      simp [hmc, grpc_rate_limit_calls]
    · simp only [grpc_rate_limit_calls]
      rw [rl_step_singleton maxR w client ws c t ht, if_neg hcm]
      have ihr := ih (c + 1) (fun t' h' => hws t' (List.mem_cons_of_mem _ h'))
        (by omega) (by simp only [List.length_cons] at hlen; omega)
      rw [show maxR - c = (maxR - (c + 1)) + 1 by omega, List.replicate_succ,
        List.cons_append]
      simp only [ihr]

/-- A nonempty within-limit run from the empty state is fully admitted and
leaves exactly one bucket. -/
theorem rl_run_empty_all_ok (maxR w : Nat) (client : String) (ws : Nat) :
    ∀ (ts : List Nat), (∀ t ∈ ts, window_start w t = ws) →
    ts.length ≤ maxR → ts ≠ [] →
    grpc_rate_limit_calls maxR w client ts [] =
      (List.replicate ts.length none, [((client, ws), ts.length)]) := by
  intro ts hws hlen hne
  match ts, hne with
  | t :: ts, _ =>
    have h0 : maxR ≠ 0 := by simp only [List.length_cons] at hlen; omega
    simp only [grpc_rate_limit_calls]
    rw [rl_step_empty maxR w client t, if_neg h0,
      hws t (List.mem_cons_self t ts)]
    rw [rl_run_singleton_all_ok maxR w client ws ts 1
      (fun t' h' => hws t' (List.mem_cons_of_mem _ h'))
      (by simp only [List.length_cons] at hlen; omega)]
    simp only [List.length_cons, List.replicate_succ]
    refine congrArg₂ Prod.mk rfl ?_
    simp only [List.cons.injEq, Prod.mk.injEq, and_true, true_and]
    omega

theorem cons_replicate_pred {α : Type} (x : α) (m : Nat) (hm : m ≠ 0) (l : List α) :
    x :: (List.replicate (m - 1) x ++ l) = List.replicate m x ++ l := by
  conv_rhs => rw [show m = (m - 1) + 1 by omega]
  rw [List.replicate_succ, List.cons_append]

/-! ## Claim C4 -/

/-- C4: from one client, `maxRequests + 1` calls inside one window admit the
first `maxRequests` and reject exactly the last with RESOURCE_EXHAUSTED (the
handler is skipped and the wrapper returns a null result); the same number
of calls spread over two successive distinct windows are all admitted; and
after every call all surviving buckets are at least the current window
start — older buckets are pruned. -/
theorem claim_C4_rate_limit (max_requests window_seconds : Nat) (client : String)
    (h_w : 0 < window_seconds) :
    (∀ (ts : List Nat) (ws : Nat), ts.length = max_requests + 1 →
      (∀ t ∈ ts, window_start window_seconds t = ws) →
      (grpc_rate_limit_calls max_requests window_seconds client ts []).1 =
        List.replicate max_requests none ++
          [some (.resource_exhausted, rate_limit_details max_requests window_seconds)]) ∧
    (∀ (ts1 ts2 : List Nat) (ws1 ws2 : Nat),
      (∀ t ∈ ts1, window_start window_seconds t = ws1) →
      (∀ t ∈ ts2, window_start window_seconds t = ws2) →
      ws1 < ws2 → 1 ≤ ts1.length → 1 ≤ ts2.length →
      ts1.length + ts2.length = max_requests + 1 →
      (grpc_rate_limit_calls max_requests window_seconds client (ts1 ++ ts2) []).1 =
        List.replicate (max_requests + 1) none) ∧
    (∀ (counts : RLCounts) (t : Nat) (kv : (String × Nat) × Nat),
      kv ∈ (grpc_rate_limit_step max_requests window_seconds counts client t).2 →
      window_start window_seconds t ≤ kv.1.2) := by
  refine ⟨?_, ?_, ?_⟩
  · intro ts ws hlen hws
    match ts, hlen with
    | t :: ts, hlen =>
      by_cases h0 : max_requests = 0
      · subst h0
        have hts : ts = [] := by
          simp only [List.length_cons] at hlen
          exact List.eq_nil_of_length_eq_zero (by omega)
        subst hts
        simp only [grpc_rate_limit_calls]
        rw [rl_step_empty 0 window_seconds client t, if_pos rfl]
        simp [grpc_rate_limit_calls]
      · simp only [grpc_rate_limit_calls]
        rw [rl_step_empty max_requests window_seconds client t, if_neg h0,
          hws t (List.mem_cons_self t ts)]
        have hr := rl_run_singleton_reject max_requests window_seconds client ws ts 1
          (fun t' h' => hws t' (List.mem_cons_of_mem _ h'))
          (by omega) (by simp only [List.length_cons] at hlen; omega)
        rw [hr]
        exact cons_replicate_pred none max_requests h0 _
  · intro ts1 ts2 ws1 ws2 hws1 hws2 hlt hlen1 hlen2 hsum
    rw [rl_calls_append]
    have h0 : max_requests ≠ 0 := by omega
    rw [rl_run_empty_all_ok max_requests window_seconds client ws1 ts1 hws1 (by omega)
      (by intro hnil; rw [hnil] at hlen1; simp at hlen1)]
    match ts2, hlen2 with
    | t :: ts2, _ =>
      simp only [grpc_rate_limit_calls]
      rw [rl_step_stale_singleton max_requests window_seconds client ws1 ws2 ts1.length t
        (hws2 t (List.mem_cons_self t ts2)) hlt h0]
      rw [rl_run_singleton_all_ok max_requests window_seconds client ws2 ts2 1
        (fun t' h' => hws2 t' (List.mem_cons_of_mem _ h'))
        (by simp only [List.length_cons] at hsum; omega)]
      rw [show max_requests + 1 = ts1.length + (ts2.length + 1) by
        simp only [List.length_cons] at hsum; omega]
      rw [List.replicate_add, List.replicate_succ]
  · intro counts t kv hkv
    simp only [grpc_rate_limit_step] at hkv
    by_cases hc : max_requests ≤
        (dict_get (counts.filter (fun kv =>
          !decide (kv.1.2 < window_start window_seconds t)))
          (client, window_start window_seconds t)).getD 0
    · rw [if_pos hc] at hkv
      have := (List.mem_filter.mp hkv).2
      simp only [Bool.not_eq_eq_eq_not, Bool.not_true, decide_eq_false_iff_not,
        Nat.not_lt] at this
      exact this
    · rw [if_neg hc] at hkv
      rcases mem_dict_set _ _ _ _ hkv with h | h
      · rw [h]
      · have := (List.mem_filter.mp h).2
        simp only [Bool.not_eq_eq_eq_not, Bool.not_true, decide_eq_false_iff_not,
          Nat.not_lt] at this
        exact this

/-- Concrete run of the C4 theorem: limit 2 per 60-second window; three calls
at seconds 0, 10, 20 admit two and reject the third; calls at 0, 10 and 60
are all admitted. -/
theorem claim_C4_rate_limit_witness :
    (grpc_rate_limit_calls 2 60 "client-1" [0, 10, 20] []).1 =
      [none, none, some (StatusCode.resource_exhausted, rate_limit_details 2 60)] ∧
    (grpc_rate_limit_calls 2 60 "client-1" ([0, 10] ++ [60]) []).1 =
      [none, none, none] := by
  constructor
  · have h := (claim_C4_rate_limit 2 60 "client-1" (by decide)).1 [0, 10, 20] 0
      (by decide) (by decide)
    rw [h]
    decide
  · have h := (claim_C4_rate_limit 2 60 "client-1" (by decide)).2.1 [0, 10] [60] 0 60
      (by decide) (by decide) (by decide) (by decide) (by decide) (by decide)
    rw [h]
    decide

/-! ## A stable ascending sort

Python's `list.sort(key=...)` is a stable ascending sort.  Any two stable
sorts by the same key agree on every input, so the structurally recursive
insertion sort below is an extensionally faithful executable model of it. -/

/-- Insert `x` before the first element `y` with `le x y`; elements comparing
equal to `x` that are already present stay in front of it (stability). -/
def stable_insert {α : Type} (le : α → α → Bool) (x : α) : List α → List α
  | [] => [x]
  | y :: ys => if le x y then x :: y :: ys else y :: stable_insert le x ys

/-- Stable ascending insertion sort. -/
def stable_sort {α : Type} (le : α → α → Bool) : List α → List α
  | [] => []
  | x :: xs => stable_insert le x (stable_sort le xs)

theorem stable_insert_perm {α : Type} (le : α → α → Bool) (x : α) :
    ∀ l : List α, (stable_insert le x l).Perm (x :: l) := by
  intro l
  induction l with
  | nil => simp [stable_insert]
  | cons y ys ih =>
    by_cases h : le x y = true
    · simp [stable_insert, h]
    · simp only [stable_insert, h, if_false]
      exact (ih.cons y).trans (List.Perm.swap x y ys)

theorem stable_sort_perm {α : Type} (le : α → α → Bool) :
    ∀ l : List α, (stable_sort le l).Perm l := by
  intro l
  induction l with
  | nil => exact List.Perm.refl _
  | cons x xs ih =>
    exact (stable_insert_perm le x (stable_sort le xs)).trans (ih.cons x)

theorem stable_insert_pairwise {α : Type} (le : α → α → Bool)
    (htot : ∀ a b, (le a b || le b a) = true)
    (htrans : ∀ a b c, le a b = true → le b c = true → le a c = true) :
    ∀ (l : List α) (x : α), l.Pairwise (fun a b => le a b = true) →
    (stable_insert le x l).Pairwise (fun a b => le a b = true) := by
  intro l
  induction l with
  | nil => intro x _; simp [stable_insert]
  | cons y ys ih =>
    intro x hp
    rw [List.pairwise_cons] at hp
    obtain ⟨hy, hys⟩ := hp
    by_cases h : le x y = true
    · rw [stable_insert, if_pos h]
      rw [List.pairwise_cons]
      refine ⟨?_, List.pairwise_cons.mpr ⟨hy, hys⟩⟩
      intro b hb
      rcases List.mem_cons.mp hb with rfl | hb'
      · exact h
      · exact htrans x y b h (hy b hb')
    · rw [stable_insert, if_neg h]
      rw [List.pairwise_cons]
      refine ⟨?_, ih x hys⟩
      intro b hb
      rcases List.mem_cons.mp ((stable_insert_perm le x ys).mem_iff.mp hb) with rfl | hb'
      · have h2 : le b y = true ∨ le y b = true := by simpa using htot b y
        rcases h2 with h1 | h1
        · exact absurd h1 h
        · exact h1
      · exact hy b hb'

theorem stable_sort_pairwise {α : Type} (le : α → α → Bool)
    (htot : ∀ a b, (le a b || le b a) = true)
    (htrans : ∀ a b c, le a b = true → le b c = true → le a c = true) :
    ∀ l : List α, (stable_sort le l).Pairwise (fun a b => le a b = true) := by
  intro l
  induction l with
  | nil => simp [stable_sort]
  | cons x xs ih => exact stable_insert_pairwise le htot htrans _ x ih

/-! ## ProviderManager (provider_manager.py lines 15-322) -/

/-- The three maps held by the `ProviderManager` singleton
(provider_manager.py lines 32-34), for an abstract provider-instance type
`ι`: live instances, the category index, and the known configs. -/
structure ManagerState (ι : Type) where
  providers : List (String × ι) := []
  categories : List (DataCategory × List String) := []
  configs : List (String × ProviderConfig) := []
deriving DecidableEq, Repr

/-- Embedding of `ProviderManager.register_provider` (provider_manager.py
lines 240-278): store the instance, then — when a non-empty category list is
passed, as this layer's callers always do — add the id to each category's
list unless already present (the mutex is irrelevant in this sequential
model, and the `elif` fallback reading a `categories` attribute off the
instance is not modeled because `ι` is abstract). -/
def register_provider {ι : Type} (st : ManagerState ι) (provider_id : String)
    (provider : ι) (categories : List DataCategory) : ManagerState ι :=
  let st1 := { st with providers := dict_set st.providers provider_id provider }
  if categories.isEmpty then st1
  else
    { st1 with categories := categories.foldl (fun cats category =>
        let ids := (dict_get cats category).getD []
        if provider_id ∈ ids then cats
        else dict_set cats category (ids ++ [provider_id])) st1.categories }

/-- Embedding of `ProviderManager.get_provider` (provider_manager.py
lines 280-289). -/
def get_provider {ι : Type} (st : ManagerState ι) (provider_id : String) : Option ι :=
  dict_get st.providers provider_id

/-- The `(priority, provider)` pairs collected by `get_providers_by_category`
(provider_manager.py lines 295-307): ids indexed under the category whose
config exists, whose live instance exists, and whose config is enabled;
missing or disabled entries are logged and skipped. -/
def valid_providers {ι : Type} (st : ManagerState ι) (category : DataCategory) :
    List (Int × ι) :=
  ((dict_get st.categories category).getD []).filterMap (fun provider_id =>
    match dict_get st.configs provider_id, dict_get st.providers provider_id with
    | some config, some provider =>
      if config.enabled then some (config.priority, provider) else none
    | _, _ => none)

/-- Embedding of `ProviderManager.get_providers_by_category`
(provider_manager.py lines 291-310): sort the valid pairs ascending by
priority (`valid_providers.sort(key=lambda x: x[0])`, a stable sort) and
return the providers. -/
def get_providers_by_category {ι : Type} (st : ManagerState ι)
    (category : DataCategory) : List ι :=
  (stable_sort (fun a b => decide (a.1 ≤ b.1)) (valid_providers st category)).map
    (fun x => x.2)

/-- Embedding of `ProviderManager.get_best_provider` (provider_manager.py
lines 312-322): `providers[0] if providers else None`. -/
def get_best_provider {ι : Type} (st : ManagerState ι) (category : DataCategory) :
    Option ι :=
  match get_providers_by_category st category with
  | [] => none
  | provider :: _ => some provider

/-- One iteration of the `initialize_all` loop (provider_manager.py
lines 155-168): `_load_provider` catches every exception class and returns
`None` on any failure (lines 209-220), so its outcome is abstracted as
`load : ProviderConfig → Option ι`; a live instance is registered under the
config's id and categories, a `None` is logged and skipped and the loop
continues with the remaining providers. -/
def init_step {ι : Type} (load : ProviderConfig → Option ι) (acc : ManagerState ι)
    (config : ProviderConfig) : ManagerState ι :=
  match load config with
  | some provider =>
    register_provider acc config.provider_id provider config.supported_categories
  | none => acc

/-- Embedding of `ProviderManager.initialize_all` (provider_manager.py
lines 140-170): a no-op when providers are already present, else iterate the
enabled configs sorted ascending by priority, loading and registering each. -/
def init_all {ι : Type} (st : ManagerState ι) (load : ProviderConfig → Option ι) :
    ManagerState ι :=
  if st.providers.isEmpty then
    (stable_sort (fun a b => decide (a.priority ≤ b.priority))
      ((st.configs.map (fun kv => kv.2)).filter (fun config => config.enabled))).foldl
      (init_step load) st
  else st

theorem get_provider_register_self {ι : Type} (st : ManagerState ι) (pid : String)
    (p : ι) (cats : List DataCategory) :
    get_provider (register_provider st pid p cats) pid = some p := by
  by_cases h : cats.isEmpty <;>
    simp [register_provider, get_provider, h, dict_get_set_self]

theorem get_provider_register_ne {ι : Type} (st : ManagerState ι) (pid pid' : String)
    (p : ι) (cats : List DataCategory) (h : pid ≠ pid') :
    get_provider (register_provider st pid p cats) pid' = get_provider st pid' := by
  by_cases hc : cats.isEmpty <;>
    simp [register_provider, get_provider, hc, dict_get_set_ne _ _ _ _ h]

theorem foldl_init_preserve {ι : Type} (load : ProviderConfig → Option ι) :
    ∀ (l : List ProviderConfig) (acc : ManagerState ι) (pid : String),
    (∀ c ∈ l, c.provider_id ≠ pid) →
    get_provider (l.foldl (init_step load) acc) pid = get_provider acc pid := by
  intro l
  induction l with
  | nil => intro acc pid _; rfl
  | cons c cs ih =>
    intro acc pid hne
    rw [List.foldl_cons, ih _ pid (fun c' h' => hne c' (List.mem_cons_of_mem _ h'))]
    unfold init_step
    cases hl : load c
    · rfl
    · exact get_provider_register_ne _ _ _ _ _ (hne c (List.mem_cons_self c cs))

theorem foldl_init_mem {ι : Type} (load : ProviderConfig → Option ι) :
    ∀ (l : List ProviderConfig) (acc : ManagerState ι) (config : ProviderConfig) (p : ι),
    config ∈ l → load config = some p →
    (l.map (fun c => c.provider_id)).Nodup →
    get_provider (l.foldl (init_step load) acc) config.provider_id = some p := by
  intro l
  induction l with
  | nil => intro acc config p hmem _ _; simp at hmem
  | cons c cs ih =>
    intro acc config p hmem hload hnodup
    rw [List.map_cons, List.nodup_cons] at hnodup
    obtain ⟨hnotin, hnodup'⟩ := hnodup
    rw [List.foldl_cons]
    rcases List.mem_cons.mp hmem with rfl | hmem'
    · rw [foldl_init_preserve load cs _ _
        (by intro c' h' hc'; exact hnotin (hc' ▸ List.mem_map_of_mem _ h'))]
      unfold init_step
      rw [hload]
      exact get_provider_register_self _ _ _ _
    · exact ih _ config p hmem' hload hnodup'

/-! ## Claim C5 -/

theorem valid_providers_mem_iff {ι : Type} (st : ManagerState ι)
    (category : DataCategory) (q : Int) (p : ι) :
    (q, p) ∈ valid_providers st category ↔
      ∃ pid ∈ (dict_get st.categories category).getD [],
        ∃ config, dict_get st.configs pid = some config ∧ config.enabled = true ∧
          config.priority = q ∧ dict_get st.providers pid = some p := by
  simp only [valid_providers, List.mem_filterMap]
  constructor
  · rintro ⟨pid, hmem, hf⟩
    rcases hcfg : dict_get st.configs pid with _ | config <;> rw [hcfg] at hf
    · simp at hf
    · rcases hprov : dict_get st.providers pid with _ | provider <;> rw [hprov] at hf
      · simp at hf
      · by_cases he : config.enabled = true
        · simp only [he, if_true, Option.some.injEq, Prod.mk.injEq] at hf
          exact ⟨pid, hmem, config, hcfg, he, hf.1, by rw [hprov, hf.2]⟩
        · simp [he] at hf
  · rintro ⟨pid, hmem, config, hcfg, he, hq, hp⟩
    refine ⟨pid, hmem, ?_⟩
    rw [hcfg, hp]
    simp [he, hq]

/-- C5: `get_providers_by_category` returns exactly the indexed providers
whose config exists, whose live instance is present, and whose config is
enabled, sorted ascending by configured priority; `get_best_provider` is the
head of that list (or none); and with a priority-1 and a priority-5 provider
both registered for equity it returns the priority-1 instance. -/
theorem claim_C5_best_provider (ι : Type) (st : ManagerState ι)
    (category : DataCategory) :
    (get_providers_by_category st category =
        (stable_sort (fun a b => decide (a.1 ≤ b.1)) (valid_providers st category)).map
          (fun x => x.2) ∧
      (stable_sort (fun a b => decide (a.1 ≤ b.1))
          (valid_providers st category)).Pairwise (fun a b => a.1 ≤ b.1) ∧
      (∀ p : ι, p ∈ get_providers_by_category st category ↔
        ∃ pid ∈ (dict_get st.categories category).getD [],
          ∃ config, dict_get st.configs pid = some config ∧ config.enabled = true ∧
            dict_get st.providers pid = some p) ∧
      get_best_provider st category = (get_providers_by_category st category).head?) ∧
    get_best_provider
      { providers := [("p1", "inst-p1"), ("p5", "inst-p5")],
        categories := [(DataCategory.equity, ["p1", "p5"])],
        configs := [("p1", { provider_id := "p1", class_path := "m.C", provider_name := "P1", priority := 1 }),
          ("p5", { provider_id := "p5", class_path := "m.C", provider_name := "P5", priority := 5 })] }
      DataCategory.equity = some "inst-p1" := by
  refine ⟨⟨rfl, ?_, ?_, ?_⟩, by decide⟩
  · have h := stable_sort_pairwise (fun a b : Int × ι => decide (a.1 ≤ b.1))
      (by intro a b; simp [Int.le_total])
      (by intro a b c hab hbc; simp only [decide_eq_true_eq] at hab hbc ⊢; omega)
      (valid_providers st category)
    exact h.imp (by intro a b hab; simpa using hab)
  · intro p
    simp only [get_providers_by_category, List.mem_map]
    constructor
    · rintro ⟨⟨q2, p2⟩, hmem, rfl⟩
      obtain ⟨pid, hpid, config, hcfg, he, _, hp⟩ :=
        (valid_providers_mem_iff st category q2 p2).mp
          ((stable_sort_perm _ _).mem_iff.mp hmem)
      exact ⟨pid, hpid, config, hcfg, he, hp⟩
    · rintro ⟨pid, hpid, config, hcfg, he, hp⟩
      refine ⟨(config.priority, p), ?_, rfl⟩
      exact (stable_sort_perm _ _).mem_iff.mpr
        ((valid_providers_mem_iff st category config.priority p).mpr
          ⟨pid, hpid, config, hcfg, he, rfl, hp⟩)
  · cases h : get_providers_by_category st category <;>
      simp [get_best_provider, h]

/-- Concrete run of the C5 theorem: on the two-provider equity state, the
best provider is the head of the sorted category listing. -/
theorem claim_C5_best_provider_witness :
    get_best_provider
      { providers := [("p1", "inst-p1"), ("p5", "inst-p5")],
        categories := [(DataCategory.equity, ["p1", "p5"])],
        configs := [("p1", { provider_id := "p1", class_path := "m.C", provider_name := "P1", priority := 1 }),
          ("p5", { provider_id := "p5", class_path := "m.C", provider_name := "P5", priority := 5 })] }
      DataCategory.equity =
      (get_providers_by_category
        { providers := [("p1", "inst-p1"), ("p5", "inst-p5")],
          categories := [(DataCategory.equity, ["p1", "p5"])],
          configs := [("p1", { provider_id := "p1", class_path := "m.C", provider_name := "P1", priority := 1 }),
            ("p5", { provider_id := "p5", class_path := "m.C", provider_name := "P5", priority := 5 })] }
        DataCategory.equity).head? :=
  (claim_C5_best_provider String _ DataCategory.equity).1.2.2.2

/-! ## Claim C8 -/

/-- C8: `initialize_all` isolates per-provider load failures: whatever
`_load_provider` returns for the other configs, every enabled config whose
load succeeds ends up registered and visible through `get_provider` (enabled
provider ids assumed distinct, as they are keys of the configs dict). -/
theorem claim_C8_isolated_failures (ι : Type) (st : ManagerState ι)
    (load : ProviderConfig → Option ι) (config : ProviderConfig) (p : ι)
    (hempty : st.providers = [])
    (hnodup : (((st.configs.map (fun kv => kv.2)).filter
      (fun c => c.enabled)).map (fun c => c.provider_id)).Nodup)
    (hmem : config ∈ (st.configs.map (fun kv => kv.2)).filter (fun c => c.enabled))
    (hload : load config = some p) :
    get_provider (init_all st load) config.provider_id = some p := by
  have h1 : st.providers.isEmpty = true := by rw [hempty]; rfl
  rw [init_all, if_pos h1]
  exact foldl_init_mem load _ st config p
    ((stable_sort_perm _ _).mem_iff.mpr hmem) hload
    (((stable_sort_perm _ _).map (fun c : ProviderConfig => c.provider_id)).nodup_iff.mpr hnodup)

/-- Concrete run of the C8 theorem: three enabled configs with priorities
1, 2, 3 where loading the second returns None; the first and third are still
registered and returned by `get_provider`. -/
theorem claim_C8_isolated_failures_witness :
    get_provider (init_all
      { configs := [("pa", { provider_id := "pa", class_path := "m.C", provider_name := "A", priority := 1 }),
          ("pb", { provider_id := "pb", class_path := "m.C", provider_name := "B", priority := 2 }),
          ("pc", { provider_id := "pc", class_path := "m.C", provider_name := "C", priority := 3 })] }
      (fun c : ProviderConfig => if c.provider_id = "pb" then none else some c.provider_id)) "pa" =
      some "pa" ∧
    get_provider (init_all
      { configs := [("pa", { provider_id := "pa", class_path := "m.C", provider_name := "A", priority := 1 }),
          ("pb", { provider_id := "pb", class_path := "m.C", provider_name := "B", priority := 2 }),
          ("pc", { provider_id := "pc", class_path := "m.C", provider_name := "C", priority := 3 })] }
      (fun c : ProviderConfig => if c.provider_id = "pb" then none else some c.provider_id)) "pc" =
      some "pc" :=
  ⟨claim_C8_isolated_failures String _ _
      { provider_id := "pa", class_path := "m.C", provider_name := "A", priority := 1 } "pa"
      rfl (by decide) (by decide) rfl,
   claim_C8_isolated_failures String _ _
      { provider_id := "pc", class_path := "m.C", provider_name := "C", priority := 3 } "pc"
      rfl (by decide) (by decide) rfl⟩

/-- Concrete run of the C10 theorem on a config with empty capability
lists. -/
theorem claim_C10_empty_capabilities_support_all_witness :
    ({ provider_id := "p", class_path := "m.C", provider_name := "P" } :
        ProviderConfig).supports_category .equity = true ∧
    ({ provider_id := "p", class_path := "m.C", provider_name := "P" } :
        ProviderConfig).supports_region .us = true :=
  ⟨(claim_C10_empty_capabilities_support_all _).1 rfl .equity,
   (claim_C10_empty_capabilities_support_all _).2 rfl .us⟩

end Fetcher
